import Mathlib

/-!
Verification of the ingestion-and-rendering pipeline of a Reddit-to-Discord
mirroring bot (`reddit_discord_bot.py`).  The Python functions are shallowly
embedded as Lean definitions: strings are modelled as lists of characters,
timestamps as rationals (all values of interest are exact), and fallible
network calls take explicit parameters recording the outcome each call
would produce.
-/

namespace RedditBot

/-! Section: strings as character lists -/

/-- A Python `str`, modelled as a list of characters. -/
abbrev Str := List Char

/-- Python `s.startswith(p)` (`beginsWith s p`). -/
def beginsWith : Str → Str → Bool
  | _, [] => true
  | [], _ :: _ => false
  | c :: s, p :: ps => c == p && beginsWith s ps

/-- The literal `'//'`. -/
def twoSlashes : Str := ['/', '/']

/-- The literal `'https:'`. -/
def httpsColon : Str := ['h', 't', 't', 'p', 's', ':']

/-- The literal `'http://'`. -/
def httpScheme : Str := ['h', 't', 't', 'p', ':', '/', '/']

/-- The literal `'https://'`. -/
def httpsScheme : Str := ['h', 't', 't', 'p', 's', ':', '/', '/']

/-- The literal `'https://www.reddit.com'`. -/
def redditHost : Str :=
  ['h', 't', 't', 'p', 's', ':', '/', '/', 'w', 'w', 'w', '.',
   'r', 'e', 'd', 'd', 'i', 't', '.', 'c', 'o', 'm']

/-- Function `ensure_valid_url` of `reddit_discord_bot.py` (lines 349-356): prepends a
scheme or the reddit host so that the result is always an absolute URL. -/
def ensure_valid_url (url : Str) : Str :=
  if beginsWith url twoSlashes then httpsColon ++ url
  else if beginsWith url ['/'] then redditHost ++ url
  else if !(beginsWith url httpScheme || beginsWith url httpsScheme) then
    httpsScheme ++ url
  else url

/-! Section: submissions, the per-channel dedup cache, and `process_subscription` -/

/-- A reddit submission, reduced to the fields the tracking pipeline reads. -/
structure Submission where
  id : String
  created_utc : Int
deriving DecidableEq

/-- Outcome of the `for submission in reversed(new_submissions)` loop of
`process_subscription` (lines 1879-1891 of `reddit_discord_bot.py`).
`sends` lists the ids for which the render/send path (`process_submission`)
was invoked, in invocation order; `cache` is `processed_submissions[channel_id]`
after the loop; `ids` is the local `processed_ids` set; `aborted` records that
a `process_submission` call raised, which exits the surrounding `try` block. -/
structure LoopResult where
  sends : List String
  cache : List String
  ids : List String
  aborted : Bool
deriving DecidableEq

/-- The loop body: each submission not yet in the channel's cache is first
registered in the cache and in `processed_ids`, then rendered and sent.
`fails s = true` models a `process_submission` call for `s` raising an
exception; the exception propagates to the `except` clause of
`process_subscription`, so the remaining submissions are not visited. -/
def processLoop (fails : String → Bool) (cache : List String) :
    List Submission → LoopResult
  | [] => ⟨[], cache, [], false⟩
  | s :: rest =>
    if s.id ∈ cache then processLoop fails cache rest
    else if fails s.id then ⟨[s.id], s.id :: cache, [s.id], true⟩
    else
      let r := processLoop fails (s.id :: cache) rest
      ⟨s.id :: r.sends, r.cache, s.id :: r.ids, r.aborted⟩

/-- Result of one `process_subscription` call for one
`(subreddit, channel_id)` pair.  `cursor_updated` records whether the
`UPDATE subscriptions SET last_check = ..., last_submission_id = ...`
statement ran (it is skipped when the `try` block raised, and when the
fetched batch was empty). -/
structure SubResult where
  sends : List String
  cache : List String
  processed_ids : List String
  cursor_updated : Bool
deriving DecidableEq

/-- Function `process_subscription` (lines 1867-1900): the fetched batch
`new_submissions` is newest-first; the loop walks it in reverse.  The whole
body sits in a single `try/except`, so an exception raised while rendering
one submission aborts the remaining submissions and skips the cursor
update. -/
def process_subscription (fails : String → Bool) (cache : List String)
    (new_submissions : List Submission) : SubResult :=
  let r := processLoop fails cache new_submissions.reverse
  ⟨r.sends, r.cache, r.ids, !r.aborted && !new_submissions.isEmpty⟩

/-! Section: `fetch_new_submissions` and the backoff decorator -/

/-- The loop body of `fetch_new_submissions` (lines 564-587): walk the
newest-first listing produced by `subreddit.new(limit=limit)` (modelled as
`stream.take limit`, the collaborator returning at most `limit` posts) and
break at the first submission whose creation time is at or before
`last_check`. -/
def fetch_new_submissions (stream : List Submission) (last_check : Int)
    (limit : Nat) : List Submission :=
  (stream.take limit).takeWhile (fun s => decide (last_check < s.created_utc))

/-- Exception classes raised by the upstream fetch, as distinguished by
`fetch_new_submissions` and by its `backoff.on_exception` decorator. -/
inductive FetchErr
  | serverError
  | requestException
  | tooManyRequests
  | forbidden
  | notFound
  | unexpected
deriving DecidableEq

/-- Membership in the exception tuple of
`@backoff.on_exception(backoff.expo, (ServerError, RequestException), max_tries=3)`.
In `asyncprawcore`, `TooManyRequests` subclasses `ResponseException`, not
`RequestException`, so a rate-limit error is not in the tuple. -/
def backoffRetries : FetchErr → Bool
  | .serverError => true
  | .requestException => true
  | _ => false

/-- One un-decorated run of the `fetch_new_submissions` body: `Forbidden`,
`NotFound` and unexpected exceptions are caught inside the function, which
then returns the submissions collected so far; `TooManyRequests`,
`ServerError` and `RequestException` are re-raised for the decorator. -/
def fetchBody (collected : List Submission) :
    Option FetchErr → Except FetchErr (List Submission)
  | none => .ok collected
  | some .forbidden => .ok collected
  | some .notFound => .ok collected
  | some .unexpected => .ok collected
  | some e => .error e

/-- Decorator `backoff.on_exception(backoff.expo, tuple, max_tries=n)`: re-invoke the
call while the raised exception is an instance of the tuple and fewer than
`n` attempts have been made, sleeping the `expo` generator value `2^k`
before the k-th retry.  Returns (outcome, attempts made, sleeps). -/
def backoffRun (retries : FetchErr → Bool)
    (call : Nat → Except FetchErr (List Submission)) :
    Nat → Nat → Except FetchErr (List Submission) × Nat × List Nat
  | 0, _ => (.error .unexpected, 0, [])
  | 1, k => (call k, 1, [])
  | n + 2, k =>
    match call k with
    | .ok a => (.ok a, 1, [])
    | .error e =>
      if retries e then
        let r := backoffRun retries call (n + 1) (k + 1)
        (r.1, r.2.1 + 1, 2 ^ k :: r.2.2)
      else (.error e, 1, [])

/-- Function `process_subscription` seen together with its fetch: an error raised
through the decorated fetch lands in the `except` clause, so nothing is
sent and neither the cache nor the cursor changes for this cycle. -/
def process_subscription_cycle (fetched : Except FetchErr (List Submission))
    (fails : String → Bool) (cache : List String) : SubResult :=
  match fetched with
  | .error _ => ⟨[], cache, [], false⟩
  | .ok batch => process_subscription fails cache batch

/-! Section: poll end-time rendering -/

/-- The "Poll Ends" / "Poll Status" field produced by the poll renderers. -/
inductive PollTimeInfo
  | endsIn (days hours minutes : Int)
  | ended
deriving DecidableEq

/-- The literal `253402300799` of lines 840 and 1173: the maximum valid
Unix timestamp in seconds (year 9999). -/
def maxUnixSeconds : ℚ := 253402300799

/-- Lines 1173-1176 (and 840-844): a `voting_end_timestamp` larger than the
maximum valid Unix-seconds value is taken to be in milliseconds and divided
by 1000; otherwise it is used as seconds unchanged. -/
def adjust_end_timestamp (ts : ℚ) : ℚ :=
  if ts > maxUnixSeconds then ts / 1000 else ts

/-- Lines 1178-1192: remaining time from `now` until the poll ends, rendered
as "In {days} days, {hours} hours, {minutes} minutes" when the duration is
positive and as "Poll has ended" otherwise.  `datetime` arithmetic is exact,
so the duration is a rational number of seconds; `timedelta.days` is the
whole number of days and `timedelta.seconds` the whole seconds of the
remainder. -/
def poll_end_field (ts now : ℚ) : PollTimeInfo :=
  let duration := adjust_end_timestamp ts - now
  if duration > 0 then
    let total : Int := ⌊duration⌋
    .endsIn (total / 86400) (total % 86400 / 3600) (total % 86400 % 3600 / 60)
  else .ended

/-! Section: content classification in `process_submission` -/

/-- The classification-relevant shape of one post, as probed by
`process_submission` (lines 1287-1614), `process_reddit_video`
(lines 1787-1850) and `get_reddit_video_url` (lines 648-667).  Each field
records the Boolean outcome of one concrete probe of the post's data. -/
structure PostShape where
  /-- Field `poll_data` is present and truthy (line 1315). -/
  has_poll_data : Bool
  /-- Field `media_metadata` holds an item with `e == 'RedditVideo'` (lines 1788-1789). -/
  has_reddit_video_meta : Bool
  /-- Field `selftext` matches `reddit.com/link/.../video/.../player` (line 1791). -/
  has_player_links : Bool
  /-- Flag `is_gallery` is set (line 1359). -/
  is_gallery : Bool
  /-- Probe `'redgifs.com' in url` (line 1422). -/
  url_redgifs : Bool
  /-- Entry `preview['reddit_video_preview']` with a fallback URL exists
  (lines 1424-1425 and 655-659). -/
  preview_video_fallback : Bool
  /-- Flag `is_self` is set (line 1467). -/
  is_self : Bool
  /-- Probe `extract_image_url` succeeds: a direct `i.redd.it` / `i.imgur.com` /
  `preview.redd.it` image URL (lines 454-462, used at line 1552). -/
  url_direct_image : Bool
  /-- Entry `media['reddit_video']` exists (line 650). -/
  media_reddit_video : Bool
  /-- Entry `secure_media['reddit_video']` exists (lines 660-661). -/
  secure_media_reddit_video : Bool
  /-- Probe `extract_video_id` succeeds: a YouTube watch link (lines 464-471, 1595). -/
  url_youtube : Bool
  /-- Probe `'/gallery/' in url` (line 1605; affects only the button label of the
  link-post branch). -/
  url_gallery_link : Bool
deriving DecidableEq

/-- The content variants of the spec, section 3. -/
inductive Variant
  | poll
  | nativeVideo
  | embeddedVideo
  | externalVideo
  | gallery
  | singleImage
  | textPost
  | linkPost
deriving DecidableEq

/-- Function `get_reddit_video_url` (lines 648-667) succeeds iff one of the three
native-video containers is present. -/
def has_native_video (p : PostShape) : Bool :=
  p.media_reddit_video || p.preview_video_fallback || p.secure_media_reddit_video

/-- The dispatch of `process_submission` (lines 1314-1614), reduced to the
variant each branch renders: poll first (line 1315); then
`process_reddit_video` (line 1320: RedditVideo metadata plus body player
links); then `is_gallery` (line 1359); then redgifs (line 1422: native
video when a `reddit_video_preview` fallback exists, a labelled link
otherwise); then self posts (line 1467); then direct image URLs
(line 1552); then native reddit video (line 1556); then YouTube
(line 1595); otherwise a link post (lines 1605-1614, gallery-labelled or
plain). -/
def classify (p : PostShape) : Variant :=
  if p.has_poll_data then .poll
  else if p.has_reddit_video_meta && p.has_player_links then .embeddedVideo
  else if p.is_gallery then .gallery
  else if p.url_redgifs then
    (if p.preview_video_fallback then .nativeVideo else .linkPost)
  else if p.is_self then .textPost
  else if p.url_direct_image then .singleImage
  else if has_native_video p then .nativeVideo
  else if p.url_youtube then .externalVideo
  else .linkPost

/-- First-match-wins dispatch over an ordered list of (probe, variant)
branches, defaulting to a plain link post. -/
def firstMatch : List ((PostShape → Bool) × Variant) → PostShape → Variant
  | [], _ => .linkPost
  | (q, v) :: rest, p => if q p then v else firstMatch rest p

/-- The priority list of spec section 4.2, exactly in the spec's order:
Poll, NativeVideo, EmbeddedVideo, ExternalVideo, Gallery, SingleImage,
TextPost (LinkPost is the default).  This definition follows the SPEC's
words, for comparison with `classify`, which follows the code. -/
def specBranches : List ((PostShape → Bool) × Variant) :=
  [(fun p => p.has_poll_data, .poll),
   (fun p => has_native_video p, .nativeVideo),
   (fun p => p.has_reddit_video_meta && p.has_player_links, .embeddedVideo),
   (fun p => p.url_youtube, .externalVideo),
   (fun p => p.is_gallery, .gallery),
   (fun p => p.url_direct_image, .singleImage),
   (fun p => p.is_self, .textPost)]

/-- The structural invariants a well-formed reddit post satisfies, stated on
the probe outcomes: a gallery post's URL is the reddit gallery permalink
(so none of the other URL probes fire, and galleries hold images, not
videos); a self post's URL is its own permalink and carries no link-preview
video; body player links occur in self posts, never alongside a native
video container; and redgifs / YouTube / direct-image link URLs are
mutually exclusive and carry no reddit-video media or metadata. -/
def structurallyExclusive (p : PostShape) : Bool :=
  (!p.is_gallery || (!p.url_redgifs && !p.is_self && !p.url_direct_image
      && !p.url_youtube && !(has_native_video p) && !p.has_reddit_video_meta))
  && (!p.is_self || (!p.url_redgifs && !p.url_direct_image && !p.url_youtube
      && !(has_native_video p)))
  && (!(p.has_reddit_video_meta && p.has_player_links) || !(has_native_video p))
  && (!p.url_redgifs || (!p.url_direct_image && !p.url_youtube
      && !p.media_reddit_video && !p.secure_media_reddit_video
      && !p.has_reddit_video_meta))
  && (!p.url_youtube || (!(has_native_video p) && !p.url_direct_image
      && !p.has_reddit_video_meta))
  && (!p.url_direct_image || (!(has_native_video p) && !p.has_reddit_video_meta))

/-- Title, author, timestamp and permalink of a post as rendered. -/
structure RenderIdentity where
  title : String
  author : String
  created_utc : Int
  permalink : String
deriving DecidableEq

/-- A post together with the head of its `crosspost_parent_list`, when
present. -/
structure FullPost where
  ident : RenderIdentity
  shape : PostShape
  crosspost_parent : Option (RenderIdentity × PostShape)

/-- Lines 1299-1312: for a crosspost, content processing runs on the
origin's data, while title, author, timestamp and permalink are overwritten
with the wrapper's own. -/
def processing_post (p : FullPost) : RenderIdentity × PostShape :=
  match p.crosspost_parent with
  | some (_, oshape) => (p.ident, oshape)
  | none => (p.ident, p.shape)

/-- Classification of a full post: the crosspost origin's shape when there
is one, the post's own shape otherwise. -/
def classifyPost (p : FullPost) : Variant := classify (processing_post p).2

/-! Section: image delivery, batching, buttons, and the size ceiling -/

/-- Constant `MAX_VIDEO_SIZE = 24 * 1024 * 1024` (line 59). -/
def MAX_VIDEO_SIZE : Nat := 24 * 1024 * 1024

/-- One image to deliver: whether its URL ends in `.gif`, whether its HTTP
fetch succeeds (the code's HEAD and GET requests hit the same object, so
one flag models both), and the size reported by the `Content-Length` header
(`int(resp.headers.get('Content-Length', 0))`, 0 when absent). -/
structure ImageItem where
  is_gif : Bool
  status_ok : Bool
  content_length : Nat
deriving DecidableEq

/-- The fetch loop of `send_image_carousel` (lines 874-891): an image
becomes an attachment `File` when its fetch succeeds and its size is within
`MAX_VIDEO_SIZE`; failures are logged and dropped, oversized payloads are
put aside in `oversized_images`. -/
def carouselFiles (images : List ImageItem) : List ImageItem :=
  images.filter (fun i => i.status_ok && decide (i.content_length ≤ MAX_VIDEO_SIZE))

/-- The `oversized_images` list of `send_image_carousel` (line 888); it is
returned to the caller, which ignores it. -/
def carouselOversized (images : List ImageItem) : List ImageItem :=
  images.filter (fun i => i.status_ok && decide (MAX_VIDEO_SIZE < i.content_length))

/-- Loop `for i in range(0, len(files), 10)` (line 896): consecutive chunks of at
most 10 files. -/
def chunks10 : List ImageItem → List (List ImageItem)
  | [] => []
  | x :: xs => (x :: xs.take 9) :: chunks10 (xs.drop 9)
termination_by l => l.length
decreasing_by simp [List.length_drop]; omega

/-- One message sent to the destination while delivering one post. -/
inductive SendUnit
  /-- The primary embed message (title, body excerpt, fields). -/
  | primary (buttons : Bool)
  /-- One oversized-GIF embed produced by `embed_oversized_gif`. -/
  | gifEmbed (gif : ImageItem) (buttons : Bool)
  /-- One attachment batch sent by `send_image_carousel`. -/
  | batch (files : List ImageItem) (buttons : Bool)
  /-- The extra buttons-only message of `send_suppressed_message`. -/
  | suppressed (buttons : Bool)
deriving DecidableEq

/-- Whether a send unit carries the interactive buttons (`view=...`). -/
def hasButtons : SendUnit → Bool
  | .primary b => b
  | .gifEmbed _ b => b
  | .batch _ b => b
  | .suppressed b => b

/-- The chunk-sending loop of `send_image_carousel` (lines 893-912): one
message per chunk of 10, the `view` riding on the last chunk only
(`is_last_chunk`). -/
def attachViewToLast (view : Bool) : List (List ImageItem) → List SendUnit
  | [] => []
  | [c] => [.batch c view]
  | c :: rest => .batch c false :: attachViewToLast view rest

/-- Function `send_image_carousel(channel, image_urls, view)` (lines 870-916): fetch
and filter the images, then send them in chunks of at most 10, the buttons
on the last chunk (sends themselves assumed accepted by Discord). -/
def send_image_carousel (images : List ImageItem) (view : Bool) : List SendUnit :=
  attachViewToLast view (chunks10 (carouselFiles images))

/-- The per-chunk carousel calls of the gallery branch (lines 1402-1414):
every chunk but the last goes through `send_image_carousel` without a view,
the last chunk with the image view (Reddit-Post and Image-Gallery buttons). -/
def galleryCarouselCalls : List (List ImageItem) → List SendUnit
  | [] => []
  | [c] => send_image_carousel c true
  | c :: rest => send_image_carousel c false ++ galleryCarouselCalls rest

/-- The delivery plan of the gallery branch of `process_submission`
(lines 1358-1420): the primary embed goes first and never carries the
buttons; images whose HEAD check fails are dropped; oversized GIFs each
become a buttonless embed; the remaining images are sent through the
carousel in chunks of 10 with the buttons on the last chunk; when no
carousel image remains, a separate suppressed message carries the buttons
(both buttons assumed visible). -/
def galleryPostSends (images : List ImageItem) : List SendUnit :=
  let oversized_gifs := images.filter
    (fun i => i.status_ok && i.is_gif && decide (MAX_VIDEO_SIZE < i.content_length))
  let image_urls := images.filter
    (fun i => i.status_ok && !(i.is_gif && decide (MAX_VIDEO_SIZE < i.content_length)))
  .primary false ::
    (oversized_gifs.map (fun g => .gifEmbed g false) ++
      (if image_urls.isEmpty then [.suppressed true]
       else galleryCarouselCalls (chunks10 image_urls)))

/-- Function `download_video(url, max_size)` (lines 1778-1785): the payload is
returned only when the GET succeeds and the content fits in `max_size`. -/
def download_video (status_ok : Bool) (size max_size : Nat) : Option Nat :=
  if status_ok && decide (size ≤ max_size) then some size else none

/-- How the native-video path of `process_submission` (lines 1556-1593)
renders: an upload when `download_video` returns content, otherwise an
embed carrying only the hosted link plus the upload-limit note. -/
inductive VideoRender
  | upload (size : Nat)
  | linkNote
deriving DecidableEq

/-- Lines 1556-1593: upload the fetched video, or fall back to a link-only
render when `download_video` refused it. -/
def render_native_video (status_ok : Bool) (size : Nat) : VideoRender :=
  match download_video status_ok size MAX_VIDEO_SIZE with
  | some s => .upload s
  | none => .linkNote

/-- Result of `embed_oversized_gif` (lines 1852-1865). -/
inductive GifEmbedResult
  | plainEmbed
  | fallbackNoteEmbed
deriving DecidableEq

/-- Function `embed_oversized_gif` sends a plain embed pointing at the hosted GIF
URL; when that send raises `discord.HTTPException`, it sends the embed with
an explanatory link field instead. -/
def embed_oversized_gif (send_raises : Bool) : GifEmbedResult :=
  if send_raises then .fallbackNoteEmbed else .plainEmbed

/-- The attachment files a send unit carries. -/
def unitFiles : SendUnit → List ImageItem
  | .batch fs _ => fs
  | _ => []

/-- All attachment files carried by a list of send units, in order. -/
def batchedFiles : List SendUnit → List ImageItem
  | [] => []
  | u :: r => unitFiles u ++ batchedFiles r

theorem beginsWith_append (p rest : Str) : beginsWith (p ++ rest) p = true := by
  induction p with
  | nil => simp [beginsWith]
  | cons c p ih => simp [beginsWith, ih]

theorem beginsWith_iff (s p : Str) : beginsWith s p = true ↔ ∃ rest, s = p ++ rest := by
  induction p generalizing s with
  | nil => simp [beginsWith]
  | cons c p ih =>
    cases s with
    | nil => simp [beginsWith]
    | cons a s =>
      simp only [beginsWith, Bool.and_eq_true, beq_iff_eq, ih, List.cons_append,
        List.cons.injEq]
      constructor
      · rintro ⟨rfl, rest, rfl⟩; exact ⟨rest, rfl, rfl⟩
      · rintro ⟨rest, rfl, rfl⟩; exact ⟨rfl, rest, rfl⟩

theorem ensure_valid_url_fixed_https (rest : Str) :
    ensure_valid_url (httpsScheme ++ rest) = httpsScheme ++ rest := by
  simp [ensure_valid_url, beginsWith, httpsScheme, twoSlashes, httpScheme]

theorem ensure_valid_url_fixed_http (rest : Str) :
    ensure_valid_url (httpScheme ++ rest) = httpScheme ++ rest := by
  simp [ensure_valid_url, beginsWith, httpsScheme, twoSlashes, httpScheme]

theorem ensure_valid_url_scheme (url : Str) :
    (∃ rest, ensure_valid_url url = httpScheme ++ rest) ∨
    (∃ rest, ensure_valid_url url = httpsScheme ++ rest) := by
  by_cases h2 : beginsWith url twoSlashes = true
  · obtain ⟨rest, rfl⟩ := (beginsWith_iff _ _).1 h2
    refine Or.inr ⟨rest, ?_⟩
    simp [ensure_valid_url, beginsWith, twoSlashes, httpsColon, httpsScheme]
  · by_cases h1 : beginsWith url ['/'] = true
    · obtain ⟨rest, rfl⟩ := (beginsWith_iff _ _).1 h1
      refine Or.inr ⟨['w', 'w', 'w', '.', 'r', 'e', 'd', 'd', 'i', 't', '.', 'c', 'o', 'm']
        ++ '/' :: rest, ?_⟩
      have e : ensure_valid_url (['/'] ++ rest) = redditHost ++ (['/'] ++ rest) := by
        unfold ensure_valid_url
        rw [if_neg (by simpa using h2), if_pos (by simpa using h1)]
      rw [e]
      simp [redditHost, httpsScheme]
    · by_cases hh : (beginsWith url httpScheme || beginsWith url httpsScheme) = true
      · rcases Bool.or_eq_true_iff.1 hh with hc | hc
        · obtain ⟨rest, rfl⟩ := (beginsWith_iff _ _).1 hc
          exact Or.inl ⟨rest, ensure_valid_url_fixed_http rest⟩
        · obtain ⟨rest, rfl⟩ := (beginsWith_iff _ _).1 hc
          exact Or.inr ⟨rest, ensure_valid_url_fixed_https rest⟩
      · refine Or.inr ⟨url, ?_⟩
        simp only [Bool.not_eq_true] at h2 h1 hh
        simp [ensure_valid_url, h2, h1, hh]

/-- Claim C10: `ensure_valid_url` always returns a URL carrying an
`http://` or `https://` scheme; protocol-relative inputs get `https:`,
absolute paths get the reddit host, bare hosts get `https://`, inputs that
already carry a scheme are returned unchanged, and the function is
idempotent. -/
theorem claim_C10_url_normalization (url : Str) :
    (beginsWith (ensure_valid_url url) httpScheme = true ∨
      beginsWith (ensure_valid_url url) httpsScheme = true)
    ∧ (beginsWith url twoSlashes = true → ensure_valid_url url = httpsColon ++ url)
    ∧ (beginsWith url twoSlashes = false → beginsWith url ['/'] = true →
        ensure_valid_url url = redditHost ++ url)
    ∧ (beginsWith url twoSlashes = false → beginsWith url ['/'] = false →
        beginsWith url httpScheme = false → beginsWith url httpsScheme = false →
        ensure_valid_url url = httpsScheme ++ url)
    ∧ (beginsWith url httpScheme = true ∨ beginsWith url httpsScheme = true →
        ensure_valid_url url = url)
    ∧ ensure_valid_url (ensure_valid_url url) = ensure_valid_url url := by
  refine ⟨?_, ?_, ?_, ?_, ?_, ?_⟩
  · rcases ensure_valid_url_scheme url with ⟨rest, h⟩ | ⟨rest, h⟩
    · exact Or.inl (h ▸ beginsWith_append _ _)
    · exact Or.inr (h ▸ beginsWith_append _ _)
  · intro h2; simp [ensure_valid_url, h2]
  · intro h2 h1; simp [ensure_valid_url, h2, h1]
  · intro h2 h1 hp hps; simp [ensure_valid_url, h2, h1, hp, hps]
  · rintro (hc | hc)
    · obtain ⟨rest, rfl⟩ := (beginsWith_iff _ _).1 hc
      exact ensure_valid_url_fixed_http rest
    · obtain ⟨rest, rfl⟩ := (beginsWith_iff _ _).1 hc
      exact ensure_valid_url_fixed_https rest
  · rcases ensure_valid_url_scheme url with ⟨rest, h⟩ | ⟨rest, h⟩
    · rw [h]; exact ensure_valid_url_fixed_http rest
    · rw [h]; exact ensure_valid_url_fixed_https rest

/-- Witness for claim C10 at the concrete input `'/a'`. -/
theorem claim_C10_url_normalization_witness :
    ensure_valid_url ['/', 'a'] = redditHost ++ ['/', 'a'] ∧
    ensure_valid_url (ensure_valid_url ['/', 'a']) = ensure_valid_url ['/', 'a'] :=
  ⟨(claim_C10_url_normalization ['/', 'a']).2.2.1 (by decide) (by decide),
    (claim_C10_url_normalization ['/', 'a']).2.2.2.2.2⟩

theorem processLoop_cache_mono (fails : String → Bool) (cache : List String)
    (l : List Submission) (i : String) (hi : i ∈ cache) :
    i ∈ (processLoop fails cache l).cache := by
  induction l generalizing cache with
  | nil => exact hi
  | cons s rest ih =>
    by_cases hm : s.id ∈ cache
    · simpa [processLoop, hm] using ih cache hi
    · by_cases hf : fails s.id
      · simp [processLoop, hm, hf, List.mem_cons]
        exact Or.inr hi
      · simpa [processLoop, hm, hf] using ih (s.id :: cache) (List.mem_cons_of_mem _ hi)

theorem processLoop_not_send_of_mem_cache (fails : String → Bool)
    (cache : List String) (l : List Submission) (i : String) (hi : i ∈ cache) :
    i ∉ (processLoop fails cache l).sends := by
  induction l generalizing cache with
  | nil => simp [processLoop]
  | cons s rest ih =>
    by_cases hm : s.id ∈ cache
    · simpa [processLoop, hm] using ih cache hi
    · have hne : i ≠ s.id := fun h => hm (h ▸ hi)
      by_cases hf : fails s.id
      · simp [processLoop, hm, hf, hne]
      · simp only [processLoop, if_neg hm, if_neg hf, List.mem_cons]
        push_neg
        exact ⟨hne, ih (s.id :: cache) (List.mem_cons_of_mem _ hi)⟩

theorem processLoop_mem_cache_of_no_fail (fails : String → Bool)
    (cache : List String) (l : List Submission)
    (hok : ∀ s ∈ l, fails s.id = false) :
    ∀ s ∈ l, s.id ∈ (processLoop fails cache l).cache := by
  induction l generalizing cache with
  | nil => simp
  | cons s rest ih =>
    intro t ht
    by_cases hm : s.id ∈ cache
    · rcases List.mem_cons.1 ht with rfl | ht'
      · simpa [processLoop, hm] using processLoop_cache_mono fails cache rest t.id hm
      · simpa [processLoop, hm] using
          ih cache (fun u hu => hok u (List.mem_cons_of_mem _ hu)) t ht'
    · have hf : fails s.id = false := hok s (List.mem_cons_self _ _)
      rcases List.mem_cons.1 ht with rfl | ht'
      · simpa [processLoop, hm, hf] using
          processLoop_cache_mono fails (t.id :: cache) rest t.id
            (List.mem_cons_self _ _)
      · simpa [processLoop, hm, hf] using
          ih (s.id :: cache) (fun u hu => hok u (List.mem_cons_of_mem _ hu)) t ht'

theorem processLoop_sends_nil_of_all_cached (fails : String → Bool)
    (cache : List String) (l : List Submission)
    (hall : ∀ s ∈ l, s.id ∈ cache) :
    (processLoop fails cache l).sends = [] := by
  induction l with
  | nil => simp [processLoop]
  | cons s rest ih =>
    have hmem : s.id ∈ cache := hall s (List.mem_cons_self _ _)
    simp [processLoop, hmem, ih (fun u hu => hall u (List.mem_cons_of_mem _ hu))]

/-- Claim C1: at-most-once delivery per cycle through the dedup cache.  An id
already registered in the channel's cache is never sent again by any sweep of
the same cycle, and after a fully successful run over a batch, re-running the
sweep over the same fetch window invokes the render/send path on nothing. -/
theorem claim_C1_dedup_at_most_once (fails : String → Bool) (cache : List String)
    (batch : List Submission) :
    (∀ i ∈ cache, i ∉ (process_subscription fails cache batch).sends)
    ∧ (∀ i ∈ (process_subscription fails cache batch).cache,
        i ∉ (process_subscription fails
              (process_subscription fails cache batch).cache batch).sends)
    ∧ ((∀ s ∈ batch, fails s.id = false) →
        (process_subscription fails
          (process_subscription fails cache batch).cache batch).sends = []) := by
  refine ⟨?_, ?_, ?_⟩
  · intro i hi
    exact processLoop_not_send_of_mem_cache fails cache batch.reverse i hi
  · intro i hi
    exact processLoop_not_send_of_mem_cache fails _ batch.reverse i hi
  · intro hok
    apply processLoop_sends_nil_of_all_cached
    intro s hs
    exact processLoop_mem_cache_of_no_fail fails cache batch.reverse
      (fun u hu => hok u (List.mem_reverse.1 hu)) s hs

/-- Witness for claim C1: cache `["a"]`, batch `[b, a]`. -/
theorem claim_C1_dedup_at_most_once_witness :
    "a" ∉ (process_subscription (fun _ => false) ["a"]
        [⟨"b", 2⟩, ⟨"a", 1⟩]).sends
    ∧ (process_subscription (fun _ => false)
        (process_subscription (fun _ => false) ["a"] [⟨"b", 2⟩, ⟨"a", 1⟩]).cache
        [⟨"b", 2⟩, ⟨"a", 1⟩]).sends = [] :=
  ⟨(claim_C1_dedup_at_most_once (fun _ => false) ["a"] [⟨"b", 2⟩, ⟨"a", 1⟩]).1
      "a" (by decide),
    (claim_C1_dedup_at_most_once (fun _ => false) ["a"] [⟨"b", 2⟩, ⟨"a", 1⟩]).2.2
      (fun s _ => rfl)⟩

theorem processLoop_sends_of_fresh (fails : String → Bool) (cache : List String)
    (l : List Submission)
    (hfresh : ∀ s ∈ l, s.id ∉ cache ∧ fails s.id = false)
    (hnodup : (l.map Submission.id).Nodup) :
    (processLoop fails cache l).sends = l.map Submission.id := by
  induction l generalizing cache with
  | nil => rfl
  | cons s rest ih =>
    obtain ⟨hm, hf⟩ := hfresh s (List.mem_cons_self _ _)
    simp only [List.map_cons, List.nodup_cons, List.mem_map] at hnodup
    simp only [processLoop, if_neg hm, if_neg (by simp [hf] : ¬fails s.id = true)]
    have : (processLoop fails (s.id :: cache) rest).sends = rest.map Submission.id := by
      refine ih (s.id :: cache) (fun t ht => ?_) hnodup.2
      obtain ⟨htm, htf⟩ := hfresh t (List.mem_cons_of_mem _ ht)
      refine ⟨?_, htf⟩
      simp only [List.mem_cons]
      push_neg
      exact ⟨fun h => hnodup.1 ⟨t, ht, h⟩, htm⟩
    simp [this]

/-- Claim C2: oldest-first delivery.  For a batch of genuinely new posts
(none already cached, distinct ids, no render failure), the render/send path
is invoked in exactly the reverse of the fetched (newest-first) order. -/
theorem claim_C2_oldest_first (fails : String → Bool) (cache : List String)
    (batch : List Submission)
    (hfresh : ∀ s ∈ batch, s.id ∉ cache ∧ fails s.id = false)
    (hnodup : (batch.map Submission.id).Nodup) :
    (process_subscription fails cache batch).sends =
      (batch.map Submission.id).reverse := by
  have := processLoop_sends_of_fresh fails cache batch.reverse
    (fun s hs => hfresh s (List.mem_reverse.1 hs))
    (by simpa [List.map_reverse] using List.nodup_reverse.2 hnodup)
  simpa [process_subscription, List.map_reverse] using this

/-- Witness for claim C2: batch `[c, b, a]` (newest first) is delivered as
`[a, b, c]`. -/
theorem claim_C2_oldest_first_witness :
    (process_subscription (fun _ => false) []
        [⟨"c", 3⟩, ⟨"b", 2⟩, ⟨"a", 1⟩]).sends = ["a", "b", "c"] :=
  claim_C2_oldest_first (fun _ => false) [] [⟨"c", 3⟩, ⟨"b", 2⟩, ⟨"a", 1⟩]
    (by intro s hs; fin_cases hs <;> exact ⟨by decide, rfl⟩) (by decide)

/-- Claim C3 counterexample: batch `[c, b, a]` (newest first) with a render
failure on `b`.  The loop visits `a` then `b`; the exception raised for `b`
escapes the single `try/except` of `process_subscription`, so `c` is never
rendered and the `last_check` cursor update is skipped — contradicting the
claim that the remaining posts are still processed and the cursor still
advances. -/
theorem claim_C3_counterexample :
    (process_subscription (fun i => i == "b") []
        [⟨"c", 3⟩, ⟨"b", 2⟩, ⟨"a", 1⟩]).sends = ["a", "b"]
    ∧ "c" ∉ (process_subscription (fun i => i == "b") []
        [⟨"c", 3⟩, ⟨"b", 2⟩, ⟨"a", 1⟩]).sends
    ∧ (process_subscription (fun i => i == "b") []
        [⟨"c", 3⟩, ⟨"b", 2⟩, ⟨"a", 1⟩]).cursor_updated = false := by
  refine ⟨rfl, by decide, rfl⟩

theorem processLoop_abort (fails : String → Bool) (cache : List String)
    (pre : List Submission) (p : Submission) (post : List Submission)
    (hfresh : ∀ s ∈ pre, s.id ∉ cache ∧ fails s.id = false)
    (hnodup : ((pre ++ [p]).map Submission.id).Nodup)
    (hpm : p.id ∉ cache) (hpf : fails p.id = true) :
    processLoop fails cache (pre ++ p :: post) =
      ⟨pre.map Submission.id ++ [p.id],
       p.id :: ((pre.map Submission.id).reverse ++ cache),
       pre.map Submission.id ++ [p.id], true⟩ := by
  induction pre generalizing cache with
  | nil =>
    simp only [List.nil_append, List.map_nil, List.reverse_nil, processLoop,
      if_neg hpm, if_pos hpf]
  | cons s pre ih =>
    obtain ⟨hm, hf⟩ := hfresh s (List.mem_cons_self _ _)
    simp only [List.cons_append, List.map_cons, List.nodup_cons, List.mem_map,
      List.mem_append, List.mem_singleton] at hnodup
    simp only [List.cons_append, processLoop, if_neg hm,
      if_neg (by simp [hf] : ¬fails s.id = true)]
    have hrec := ih (s.id :: cache)
      (fun t ht => by
        obtain ⟨htm, htf⟩ := hfresh t (List.mem_cons_of_mem _ ht)
        refine ⟨?_, htf⟩
        simp only [List.mem_cons]
        push_neg
        exact ⟨fun h => hnodup.1 ⟨t, Or.inl ht, h⟩, htm⟩)
      (by simpa using hnodup.2)
      (by
        simp only [List.mem_cons]
        push_neg
        exact ⟨fun h => hnodup.1 ⟨p, Or.inr rfl, h⟩, hpm⟩)
    simp [hrec, List.reverse_cons]

/-- Claim C3 amended: when rendering one post raises, the posts already
delivered (the older part of the reversed batch) stay delivered and cached,
the failing post itself is registered in the cache, but the remaining
(newer) posts of the batch are not rendered in this cycle and the cursor
update is skipped. -/
theorem claim_C3_amended_failure_aborts_batch (fails : String → Bool)
    (cache : List String) (batch : List Submission) (pre : List Submission)
    (p : Submission) (post : List Submission)
    (hdecomp : batch.reverse = pre ++ p :: post)
    (hfresh : ∀ s ∈ pre, s.id ∉ cache ∧ fails s.id = false)
    (hnodup : ((pre ++ p :: post).map Submission.id).Nodup)
    (hpm : p.id ∉ cache) (hpf : fails p.id = true) :
    (process_subscription fails cache batch).sends =
        pre.map Submission.id ++ [p.id]
    ∧ (∀ s ∈ post, s.id ∉ (process_subscription fails cache batch).sends)
    ∧ (process_subscription fails cache batch).cursor_updated = false
    ∧ p.id ∈ (process_subscription fails cache batch).cache := by
  have hsub : List.Sublist ((pre ++ [p]).map Submission.id)
      ((pre ++ p :: post).map Submission.id) :=
    List.Sublist.map Submission.id
      ((List.append_sublist_append_left pre).2
        (List.cons_sublist_cons.2 (List.nil_sublist post)))
  have hnodup' : ((pre ++ [p]).map Submission.id).Nodup := hnodup.sublist hsub
  have hloop := processLoop_abort fails cache pre p post hfresh hnodup' hpm hpf
  have hne : batch ≠ [] := by
    intro h
    rw [h] at hdecomp
    exact absurd hdecomp.symm (List.append_ne_nil_of_right_ne_nil _ (by simp))
  refine ⟨?_, ?_, ?_, ?_⟩
  · simp [process_subscription, hdecomp, hloop]
  · intro s hs
    have hsmem : s.id ∈ post.map Submission.id := List.mem_map_of_mem _ hs
    have hnd := hnodup
    simp only [List.map_append, List.map_cons, List.nodup_append,
      List.nodup_cons, List.disjoint_left] at hnd
    simp only [process_subscription, hdecomp, hloop, List.mem_append,
      List.mem_singleton]
    push_neg
    refine ⟨fun hc => ?_, fun hc => ?_⟩
    · exact hnd.2.2 hc (List.mem_cons_of_mem _ hsmem)
    · exact hnd.2.1.1 (hc ▸ hsmem)
  · simp [process_subscription, hdecomp, hloop, hne]
  · simp [process_subscription, hdecomp, hloop]

/-- Witness for the amended C3 at the concrete counterexample batch. -/
theorem claim_C3_amended_failure_aborts_batch_witness :
    (process_subscription (fun i => i == "b") []
        [⟨"c", 3⟩, ⟨"b", 2⟩, ⟨"a", 1⟩]).sends = ["a", "b"]
    ∧ (∀ s ∈ ([⟨"c", 3⟩] : List Submission),
        s.id ∉ (process_subscription (fun i => i == "b") []
          [⟨"c", 3⟩, ⟨"b", 2⟩, ⟨"a", 1⟩]).sends)
    ∧ (process_subscription (fun i => i == "b") []
        [⟨"c", 3⟩, ⟨"b", 2⟩, ⟨"a", 1⟩]).cursor_updated = false
    ∧ "b" ∈ (process_subscription (fun i => i == "b") []
        [⟨"c", 3⟩, ⟨"b", 2⟩, ⟨"a", 1⟩]).cache :=
  claim_C3_amended_failure_aborts_batch (fun i => i == "b") []
    [⟨"c", 3⟩, ⟨"b", 2⟩, ⟨"a", 1⟩] [⟨"a", 1⟩] ⟨"b", 2⟩ [⟨"c", 3⟩]
    (by decide) (by intro s hs; fin_cases hs; exact ⟨by decide, rfl⟩)
    (by decide) (by decide) rfl

theorem dropWhile_head_falsifies (p : Submission → Bool) (l : List Submission) :
    ∀ s rest, l.dropWhile p = s :: rest → p s = false := by
  induction l with
  | nil => intro s rest h; simp [List.dropWhile] at h
  | cons a l ih =>
    intro s rest h
    by_cases hp : p a
    · rw [List.dropWhile_cons_of_pos hp] at h
      exact ih s rest h
    · rw [List.dropWhile_cons_of_neg hp] at h
      cases h
      simpa using hp

/-- Claim C5: the fetch contract.  Every returned post is strictly newer than
`last_check`; at most `limit` posts are returned; newest-first order is
preserved when the feed listing is reverse-chronological; and the scan is a
prefix of the listing that stops exactly at the first post at or older than
`last_check`. -/
theorem claim_C5_fetch_contract (stream : List Submission) (last_check : Int)
    (limit : Nat) :
    (∀ s ∈ fetch_new_submissions stream last_check limit,
        last_check < s.created_utc)
    ∧ (fetch_new_submissions stream last_check limit).length ≤ limit
    ∧ (stream.Pairwise (fun a b => b.created_utc ≤ a.created_utc) →
        (fetch_new_submissions stream last_check limit).Pairwise
          (fun a b => b.created_utc ≤ a.created_utc))
    ∧ ∃ rest, stream.take limit =
          fetch_new_submissions stream last_check limit ++ rest
        ∧ (rest = [] ∨
            ∃ s rest2, rest = s :: rest2 ∧ s.created_utc ≤ last_check) := by
  refine ⟨?_, ?_, ?_, ?_⟩
  · intro s hs
    have := List.mem_takeWhile_imp hs
    simpa using this
  · exact le_trans (List.takeWhile_sublist _).length_le (List.length_take_le _ _)
  · intro hsorted
    exact List.Pairwise.sublist
      ((List.takeWhile_sublist _).trans (List.take_sublist _ _)) hsorted
  · refine ⟨(stream.take limit).dropWhile
      (fun s => decide (last_check < s.created_utc)), ?_, ?_⟩
    · exact (List.takeWhile_append_dropWhile _ _).symm
    · rcases hd : (stream.take limit).dropWhile
        (fun s => decide (last_check < s.created_utc)) with _ | ⟨s, rest2⟩
      · exact Or.inl hd
      · refine Or.inr ⟨s, rest2, hd, ?_⟩
        have := dropWhile_head_falsifies _ _ s rest2 hd
        simpa using this

/-- Witness for claim C5 on a concrete reverse-chronological stream. -/
theorem claim_C5_fetch_contract_witness :
    ([⟨"c", 30⟩, ⟨"b", 20⟩, ⟨"a", 10⟩] : List Submission).Pairwise
        (fun a b => b.created_utc ≤ a.created_utc)
    ∧ (fetch_new_submissions [⟨"c", 30⟩, ⟨"b", 20⟩, ⟨"a", 10⟩] 15 10).Pairwise
        (fun a b => b.created_utc ≤ a.created_utc) :=
  ⟨by decide,
    (claim_C5_fetch_contract [⟨"c", 30⟩, ⟨"b", 20⟩, ⟨"a", 10⟩] 15 10).2.2.1
      (by decide)⟩

/-- Claim C4 counterexample: a fetch that raises the rate-limit error
(`TooManyRequests`) on every attempt is tried exactly once, not 3 times —
the decorator's tuple `(ServerError, RequestException)` does not cover it
even though the body re-raises it "for backoff". -/
theorem claim_C4_counterexample :
    (backoffRun backoffRetries
        (fun _ => fetchBody [] (some .tooManyRequests)) 3 0).2.1 = 1
    ∧ ¬((backoffRun backoffRetries
        (fun _ => fetchBody [] (some .tooManyRequests)) 3 0).2.1 = 3) := by
  exact ⟨rfl, by decide⟩

/-- Claim C4 amended: fetch failures that raise `ServerError` or
`RequestException` on every attempt are retried with exponentially doubling
delays for exactly 3 attempts, and rate-limit (`TooManyRequests`) failures
are not retried at all; in both cases the raised error makes the cycle skip
the feed, leaving cache and cursor untouched. -/
theorem claim_C4_amended_retry_policy (e : FetchErr)
    (he : backoffRetries e = true) :
    backoffRun backoffRetries (fun _ => fetchBody [] (some e)) 3 0 =
      (.error e, 3, [1, 2])
    ∧ backoffRun backoffRetries
        (fun _ => fetchBody [] (some .tooManyRequests)) 3 0 =
      (.error .tooManyRequests, 1, [])
    ∧ (∀ (e2 : FetchErr) (fails : String → Bool) (cache : List String),
        process_subscription_cycle (.error e2) fails cache =
          ⟨[], cache, [], false⟩) := by
  refine ⟨?_, rfl, fun e2 fails cache => rfl⟩
  cases e <;> simp [backoffRetries] at he <;> rfl

/-- Witness for the amended C4 at `ServerError`. -/
theorem claim_C4_amended_retry_policy_witness :
    backoffRun backoffRetries
        (fun _ => fetchBody [] (some .serverError)) 3 0 =
      (.error .serverError, 3, [1, 2]) :=
  (claim_C4_amended_retry_policy .serverError rfl).1

/-- Claim C9: the poll end timestamp is read as milliseconds exactly when it
exceeds the maximum valid Unix-seconds value, a non-positive remaining
duration renders as the poll-has-ended status, and a millisecond timestamp
two days in the future renders as a remaining time of 2 days. -/
theorem claim_C9_poll_end_time (ts now : ℚ) :
    (ts > maxUnixSeconds → adjust_end_timestamp ts = ts / 1000)
    ∧ (ts ≤ maxUnixSeconds → adjust_end_timestamp ts = ts)
    ∧ (adjust_end_timestamp ts - now ≤ 0 → poll_end_field ts now = .ended)
    ∧ (now ≥ 1000000000 →
        poll_end_field ((now + 172800) * 1000) now = .endsIn 2 0 0) := by
  refine ⟨?_, ?_, ?_, ?_⟩
  · intro h; simp [adjust_end_timestamp, h]
  · intro h; simp [adjust_end_timestamp, not_lt.2 h]
  · intro h
    simp only [poll_end_field]
    rw [if_neg (not_lt.2 h)]
  · intro h
    have hgt : (now + 172800) * 1000 > maxUnixSeconds := by
      unfold maxUnixSeconds; nlinarith
    have hadj : adjust_end_timestamp ((now + 172800) * 1000) = now + 172800 := by
      rw [adjust_end_timestamp, if_pos hgt]
      field_simp
    simp only [poll_end_field, hadj]
    have hdur : now + 172800 - now = (172800 : ℚ) := by ring
    rw [hdur, if_pos (by norm_num : (172800 : ℚ) > 0)]
    have hfl : ⌊(172800 : ℚ)⌋ = 172800 := by
      norm_num
    rw [hfl]
    decide

/-- Witness for claim C9: a poll ending two exact days after the instant
`2000000000` (May 2033), with the end timestamp given in milliseconds. -/
theorem claim_C9_poll_end_time_witness :
    poll_end_field ((2000000000 + 172800) * 1000) 2000000000 =
      .endsIn 2 0 0 :=
  (claim_C9_poll_end_time 0 2000000000).2.2.2 (by norm_num)

/-- Claim C6: on every structurally well-formed post the code's dispatch
agrees with the first-match-wins priority order of the spec (Poll,
NativeVideo, EmbeddedVideo, ExternalVideo, Gallery, SingleImage, TextPost,
LinkPost), each post landing in exactly the first matching branch; and a
crosspost is classified against its origin's media/body while the rendered
title, author, timestamp and permalink stay the wrapper's. -/
theorem claim_C6_classifier_priority :
    (∀ p : PostShape, structurallyExclusive p = true →
      classify p = firstMatch specBranches p)
    ∧ (∀ (fp : FullPost) (oident : RenderIdentity) (oshape : PostShape),
        fp.crosspost_parent = some (oident, oshape) →
        classifyPost fp = classify oshape ∧ (processing_post fp).1 = fp.ident) := by
  constructor
  · intro p
    obtain ⟨b1, b2, b3, b4, b5, b6, b7, b8, b9, b10, b11, b12⟩ := p
    revert b1 b2 b3 b4 b5 b6 b7 b8 b9 b10 b11 b12
    decide
  · intro fp oident oshape h
    simp [classifyPost, processing_post, h]

/-- Witness for claim C6: a native-video crosspost wrapper.  The wrapper's
own shape is a plain link; the origin is a native reddit video; the post
classifies as a native video and (being structurally exclusive) agrees with
the spec's priority list. -/
theorem claim_C6_classifier_priority_witness :
    classifyPost
        ⟨⟨"t", "a", 5, "/p"⟩,
         ⟨false, false, false, false, false, false, false, false,
          false, false, false, false⟩,
         some (⟨"o", "b", 1, "/q"⟩,
           ⟨false, false, false, false, false, false, false, false,
            true, false, false, false⟩)⟩ =
      classify
        ⟨false, false, false, false, false, false, false, false,
         true, false, false, false⟩
    ∧ classify
        ⟨false, false, false, false, false, false, false, false,
         true, false, false, false⟩ =
      firstMatch specBranches
        ⟨false, false, false, false, false, false, false, false,
         true, false, false, false⟩ :=
  ⟨(claim_C6_classifier_priority.2
      ⟨⟨"t", "a", 5, "/p"⟩,
       ⟨false, false, false, false, false, false, false, false,
        false, false, false, false⟩,
       some (⟨"o", "b", 1, "/q"⟩,
         ⟨false, false, false, false, false, false, false, false,
          true, false, false, false⟩)⟩
      ⟨"o", "b", 1, "/q"⟩
      ⟨false, false, false, false, false, false, false, false,
       true, false, false, false⟩ rfl).1,
    claim_C6_classifier_priority.1
      ⟨false, false, false, false, false, false, false, false,
       true, false, false, false⟩ (by decide)⟩

theorem chunks10_length_le (l : List ImageItem) :
    ∀ c ∈ chunks10 l, c.length ≤ 10 := by
  induction l using chunks10.induct with
  | case1 => simp [chunks10]
  | case2 x xs ih =>
    intro c hc
    rw [chunks10] at hc
    rcases List.mem_cons.1 hc with rfl | hc'
    · simp [List.length_take]
    · exact ih c hc'

theorem chunks10_flatten (l : List ImageItem) : (chunks10 l).flatten = l := by
  induction l using chunks10.induct with
  | case1 => simp [chunks10]
  | case2 x xs ih =>
    rw [chunks10]
    simp [ih]

theorem chunks10_mem_ne_nil (l : List ImageItem) :
    ∀ c ∈ chunks10 l, c ≠ [] := by
  induction l using chunks10.induct with
  | case1 => simp [chunks10]
  | case2 x xs ih =>
    intro c hc
    rw [chunks10] at hc
    rcases List.mem_cons.1 hc with rfl | hc'
    · simp
    · exact ih c hc'

theorem chunks10_singleton (l : List ImageItem) (h1 : l ≠ [])
    (h2 : l.length ≤ 10) : chunks10 l = [l] := by
  cases l with
  | nil => exact absurd rfl h1
  | cons x xs =>
    rw [chunks10]
    have hx : xs.length ≤ 9 := by simpa using h2
    rw [List.take_of_length_le hx, List.drop_eq_nil_of_le hx]
    simp [chunks10]

theorem mem_attachViewToLast (v : Bool) (cs : List (List ImageItem))
    (u : SendUnit) (hu : u ∈ attachViewToLast v cs) :
    ∃ c b, u = SendUnit.batch c b ∧ c ∈ cs := by
  induction cs with
  | nil => simp [attachViewToLast] at hu
  | cons a rest ih =>
    cases rest with
    | nil =>
      simp [attachViewToLast] at hu
      exact ⟨a, v, hu, List.mem_cons_self _ _⟩
    | cons b rest2 =>
      simp only [attachViewToLast, List.mem_cons] at hu
      rcases hu with rfl | hu'
      · exact ⟨a, false, rfl, List.mem_cons_self _ _⟩
      · obtain ⟨c, b', hc, hcs⟩ := ih hu'
        exact ⟨c, b', hc, List.mem_cons_of_mem _ hcs⟩

theorem attachViewToLast_true_decomp (cs : List (List ImageItem))
    (h : cs ≠ []) :
    ∃ pre c, attachViewToLast true cs =
        pre.map (fun c => SendUnit.batch c false) ++ [SendUnit.batch c true]
      ∧ cs = pre ++ [c] := by
  induction cs with
  | nil => exact absurd rfl h
  | cons a rest ih =>
    cases rest with
    | nil => exact ⟨[], a, rfl, rfl⟩
    | cons b rest2 =>
      obtain ⟨pre, c, h1, h2⟩ := ih (by simp)
      exact ⟨a :: pre, c, by simp [attachViewToLast, h1], by simp [h2]⟩

theorem batchedFiles_attachViewToLast (v : Bool)
    (cs : List (List ImageItem)) :
    batchedFiles (attachViewToLast v cs) = cs.flatten := by
  induction cs with
  | nil => rfl
  | cons a rest ih =>
    cases rest with
    | nil => simp [attachViewToLast, batchedFiles, unitFiles]
    | cons b rest2 =>
      simp only [attachViewToLast, batchedFiles, unitFiles, List.flatten_cons]
      rw [ih]
      simp

theorem batchedFiles_append (l1 l2 : List SendUnit) :
    batchedFiles (l1 ++ l2) = batchedFiles l1 ++ batchedFiles l2 := by
  induction l1 with
  | nil => rfl
  | cons u r ih => simp [batchedFiles, ih]

theorem batchedFiles_gif_map (gifs : List ImageItem) :
    batchedFiles (gifs.map (fun g => SendUnit.gifEmbed g false)) = [] := by
  induction gifs with
  | nil => rfl
  | cons g r ih => simpa [batchedFiles, unitFiles] using ih

theorem send_image_carousel_good (imgs : List ImageItem) (v : Bool)
    (h1 : imgs ≠ []) (h2 : imgs.length ≤ 10)
    (h3 : ∀ i ∈ imgs, i.status_ok = true ∧
      i.content_length ≤ MAX_VIDEO_SIZE) :
    send_image_carousel imgs v = [.batch imgs v] := by
  have hcf : carouselFiles imgs = imgs :=
    List.filter_eq_self.2 (fun i hi => by
      obtain ⟨ho, hs⟩ := h3 i hi
      simp [ho, hs])
  rw [send_image_carousel, hcf, chunks10_singleton imgs h1 h2]
  rfl

theorem galleryCarouselCalls_good (cs : List (List ImageItem))
    (h : ∀ c ∈ cs, c ≠ [] ∧ c.length ≤ 10 ∧
      ∀ i ∈ c, i.status_ok = true ∧ i.content_length ≤ MAX_VIDEO_SIZE) :
    galleryCarouselCalls cs = attachViewToLast true cs := by
  induction cs with
  | nil => rfl
  | cons a rest ih =>
    obtain ⟨ha1, ha2, ha3⟩ := h a (List.mem_cons_self _ _)
    cases rest with
    | nil =>
      show send_image_carousel a true = _
      rw [send_image_carousel_good a true ha1 ha2 ha3]
      rfl
    | cons b rest2 =>
      show send_image_carousel a false ++ _ = _
      rw [send_image_carousel_good a false ha1 ha2 ha3,
        ih (fun c hc => h c (List.mem_cons_of_mem _ hc))]
      rfl

/-- A gallery whose single image is an oversized non-GIF (a 24MB+1 PNG):
the HEAD check at lines 1372-1379 only screens `.gif` URLs, so the item
reaches the carousel, whose fetch loop drops it into the ignored
`oversized_images` list; only the primary message is sent. -/
theorem galleryPostSends_oversized_nongif :
    galleryPostSends [⟨false, true, 25165825⟩] = [.primary false] := by
  have h0 : chunks10 ([] : List ImageItem) = [] := by rw [chunks10]
  have h1 : chunks10 [⟨false, true, 25165825⟩] =
      [[(⟨false, true, 25165825⟩ : ImageItem)]] := by
    rw [chunks10]
    simp [chunks10]
  have h2 : carouselFiles [⟨false, true, 25165825⟩] = [] := by
    simp [carouselFiles, MAX_VIDEO_SIZE]
  calc galleryPostSends [⟨false, true, 25165825⟩]
      = SendUnit.primary false ::
          ([] ++ galleryCarouselCalls (chunks10 [⟨false, true, 25165825⟩])) := rfl
    _ = SendUnit.primary false ::
          ([] ++ galleryCarouselCalls [[⟨false, true, 25165825⟩]]) := by rw [h1]
    _ = SendUnit.primary false ::
          ([] ++ attachViewToLast true
            (chunks10 (carouselFiles [⟨false, true, 25165825⟩]))) := rfl
    _ = SendUnit.primary false ::
          ([] ++ attachViewToLast true (chunks10 [])) := by rw [h2]
    _ = [SendUnit.primary false] := by rw [h0]; rfl

/-- Claim C7 counterexample: a gallery whose single image is an oversized
GIF.  There is no attachment batch, yet the buttons do not go to the
primary message (which never carries them in this flow): they ride on a
separate suppressed buttons-only message. -/
theorem claim_C7_counterexample :
    galleryPostSends [⟨true, true, 25165825⟩] =
      [.primary false, .gifEmbed ⟨true, true, 25165825⟩ false,
       .suppressed true]
    ∧ (∀ fs b, SendUnit.batch fs b ∉ galleryPostSends [⟨true, true, 25165825⟩]) := by
  have e : galleryPostSends [⟨true, true, 25165825⟩] =
      [.primary false, .gifEmbed ⟨true, true, 25165825⟩ false,
       .suppressed true] := rfl
  refine ⟨e, fun fs b hb => ?_⟩
  rw [e] at hb
  simp at hb

/-- Claim C7 amended: in the gallery delivery flow the primary message goes
first and never carries buttons or attachments, and every attachment batch
holds at most 10 files.  Provided every image fetch succeeds and every
non-GIF image is within the ceiling, the batches carry exactly the
size-admissible images in their original order and the buttons ride on
exactly one unit — the last one sent, which is the last attachment batch
when one exists and a separate suppressed buttons-only message otherwise.
Outside those conditions the buttons can be dropped entirely: when the
carousel drops every remaining image (a lone oversized non-GIF), no unit
carries buttons at all. -/
theorem claim_C7_amended_batching (images : List ImageItem)
    (hok : ∀ i ∈ images, i.status_ok = true ∧
      (i.is_gif = false → i.content_length ≤ MAX_VIDEO_SIZE)) :
    (galleryPostSends images).head? = some (.primary false)
    ∧ (∀ u ∈ galleryPostSends images, ∀ fs b, u = SendUnit.batch fs b →
        fs.length ≤ 10)
    ∧ batchedFiles (galleryPostSends images) = images.filter
        (fun i => i.status_ok &&
          !(i.is_gif && decide (MAX_VIDEO_SIZE < i.content_length)))
    ∧ (∃ pre u, galleryPostSends images = pre ++ [u] ∧ hasButtons u = true
        ∧ ∀ x ∈ pre, hasButtons x = false)
    ∧ (galleryPostSends [⟨false, true, 25165825⟩] = [.primary false]
        ∧ ∀ u ∈ galleryPostSends [⟨false, true, 25165825⟩],
            hasButtons u = false) := by
  have hdeg : galleryPostSends [⟨false, true, 25165825⟩] = [.primary false] :=
    galleryPostSends_oversized_nongif
  have hdeg2 : ∀ u ∈ galleryPostSends [⟨false, true, 25165825⟩],
      hasButtons u = false := by
    rw [hdeg]
    intro u hu
    simp only [List.mem_singleton] at hu
    subst hu
    rfl
  set iu := images.filter
    (fun i => i.status_ok &&
      !(i.is_gif && decide (MAX_VIDEO_SIZE < i.content_length))) with hiu
  set gifs := images.filter
    (fun i => i.status_ok && i.is_gif &&
      decide (MAX_VIDEO_SIZE < i.content_length)) with hgifs
  have hiugood : ∀ i ∈ iu, i.status_ok = true ∧
      i.content_length ≤ MAX_VIDEO_SIZE := by
    intro i hi
    obtain ⟨him, hp⟩ := List.mem_filter.1 hi
    rcases Bool.and_eq_true_iff.1 hp with ⟨ho, hrest⟩
    refine ⟨ho, ?_⟩
    by_cases hg : i.is_gif = true
    · simp only [hg, Bool.true_and, Bool.not_eq_true', decide_eq_false_iff_not,
        not_lt] at hrest
      exact hrest
    · exact (hok i him).2 (by simpa using hg)
  have hsends : galleryPostSends images =
      .primary false :: (gifs.map (fun g => SendUnit.gifEmbed g false) ++
        (if iu.isEmpty then [.suppressed true]
         else galleryCarouselCalls (chunks10 iu))) := rfl
  by_cases hempty : iu.isEmpty
  · rw [hsends, if_pos hempty]
    have hiunil : iu = [] := by simpa [List.isEmpty_iff] using hempty
    refine ⟨rfl, ?_, ?_, ?_, hdeg, hdeg2⟩
    · intro u hu fs b hub
      subst hub
      rcases List.mem_cons.1 hu with h | h
      · exact absurd h (by simp)
      · rcases List.mem_append.1 h with h' | h'
        · obtain ⟨g, _, hg⟩ := List.mem_map.1 h'
          exact absurd hg (by simp)
        · simp at h'
    · rw [show batchedFiles (SendUnit.primary false ::
          (gifs.map (fun g => SendUnit.gifEmbed g false) ++ [.suppressed true])) =
          batchedFiles (gifs.map (fun g => SendUnit.gifEmbed g false)) ++
            batchedFiles [SendUnit.suppressed true] by
        simp [batchedFiles, unitFiles, batchedFiles_append]]
      rw [batchedFiles_gif_map]
      simp [batchedFiles, unitFiles, hiunil]
    · refine ⟨.primary false :: gifs.map (fun g => SendUnit.gifEmbed g false),
        .suppressed true, by simp, rfl, ?_⟩
      intro x hx
      rcases List.mem_cons.1 hx with rfl | hx'
      · rfl
      · obtain ⟨g, _, hg⟩ := List.mem_map.1 hx'
        rw [← hg]
        rfl
  · have hiune : iu ≠ [] := by simpa [List.isEmpty_iff] using hempty
    have hchunksgood : ∀ c ∈ chunks10 iu, c ≠ [] ∧ c.length ≤ 10 ∧
        ∀ i ∈ c, i.status_ok = true ∧ i.content_length ≤ MAX_VIDEO_SIZE := by
      intro c hc
      refine ⟨chunks10_mem_ne_nil iu c hc, chunks10_length_le iu c hc, ?_⟩
      intro i hi
      have : i ∈ iu := by
        rw [← chunks10_flatten iu]
        exact List.mem_flatten.2 ⟨c, hc, hi⟩
      exact hiugood i this
    have hcalls : galleryCarouselCalls (chunks10 iu) =
        attachViewToLast true (chunks10 iu) :=
      galleryCarouselCalls_good _ hchunksgood
    have hchne : chunks10 iu ≠ [] := by
      intro h
      apply hiune
      rw [← chunks10_flatten iu, h]
      rfl
    rw [hsends, if_neg hempty, hcalls]
    refine ⟨rfl, ?_, ?_, ?_, hdeg, hdeg2⟩
    · intro u hu fs b hub
      subst hub
      rcases List.mem_cons.1 hu with h | h
      · exact absurd h (by simp)
      · rcases List.mem_append.1 h with h' | h'
        · obtain ⟨g, _, hg⟩ := List.mem_map.1 h'
          exact absurd hg (by simp)
        · obtain ⟨c, b', hcb, hcmem⟩ := mem_attachViewToLast true _ _ h'
          obtain ⟨rfl, -⟩ : fs = c ∧ b = b' := by
            constructor <;> [skip; skip] <;> cases hcb <;> rfl
          exact chunks10_length_le iu fs hcmem
    · rw [show batchedFiles (SendUnit.primary false ::
          (gifs.map (fun g => SendUnit.gifEmbed g false) ++
            attachViewToLast true (chunks10 iu))) =
          batchedFiles (gifs.map (fun g => SendUnit.gifEmbed g false)) ++
            batchedFiles (attachViewToLast true (chunks10 iu)) by
        simp [batchedFiles, unitFiles, batchedFiles_append]]
      rw [batchedFiles_gif_map, batchedFiles_attachViewToLast,
        chunks10_flatten]
      rfl
    · obtain ⟨pre, c, hdec, -⟩ := attachViewToLast_true_decomp _ hchne
      refine ⟨.primary false :: (gifs.map (fun g => SendUnit.gifEmbed g false) ++
          pre.map (fun c => SendUnit.batch c false)), .batch c true, ?_, rfl, ?_⟩
      · rw [hdec]
        simp
      · intro x hx
        rcases List.mem_cons.1 hx with rfl | hx'
        · rfl
        · rcases List.mem_append.1 hx' with h' | h'
          · obtain ⟨g, _, hg⟩ := List.mem_map.1 h'
            rw [← hg]; rfl
          · obtain ⟨d, _, hd⟩ := List.mem_map.1 h'
            rw [← hd]; rfl

/-- Witness for the amended C7: a gallery of 11 equal small images produces
the primary message, a batch of 10, and a final buttoned batch of 1. -/
theorem claim_C7_amended_batching_witness :
    (galleryPostSends (List.replicate 11 ⟨false, true, 5⟩)).head? =
      some (.primary false)
    ∧ (∃ pre u, galleryPostSends (List.replicate 11 ⟨false, true, 5⟩) =
        pre ++ [u] ∧ hasButtons u = true ∧ ∀ x ∈ pre, hasButtons x = false) :=
  ⟨(claim_C7_amended_batching (List.replicate 11 ⟨false, true, 5⟩)
      (by intro i hi; rw [List.eq_of_mem_replicate hi]; exact ⟨rfl, fun _ => by norm_num [MAX_VIDEO_SIZE]⟩)).1,
    (claim_C7_amended_batching (List.replicate 11 ⟨false, true, 5⟩)
      (by intro i hi; rw [List.eq_of_mem_replicate hi]; exact ⟨rfl, fun _ => by norm_num [MAX_VIDEO_SIZE]⟩)).2.2.2.1⟩

/-- Claim C8 counterexample: a gallery whose single image is an oversized
non-GIF (e.g. a 24MB+1 PNG).  The HEAD check only screens GIFs, so the item
reaches the carousel, which drops it into the ignored `oversized_images`
list: it is never attached (as the claim says), but no plain embed pointing
at its hosted URL is produced either — only the primary message is sent. -/
theorem claim_C8_counterexample :
    galleryPostSends [⟨false, true, 25165825⟩] = [.primary false] :=
  galleryPostSends_oversized_nongif

/-- Claim C8 amended: media above the 24MB ceiling is never attached — every
file carried by a carousel batch is within `MAX_VIDEO_SIZE`; oversized GIFs
caught by the HEAD checks each get a plain embed pointing at the hosted URL,
with a fallback link note when that embed send raises; fetched video content
above the ceiling yields a link-only render; but an oversized non-GIF image
is silently dropped by the carousel instead of being embedded. -/
theorem claim_C8_amended_size_ceiling (images : List ImageItem) (v : Bool)
    (i : ImageItem) (hi : i ∈ images) :
    (∀ u ∈ send_image_carousel images v, ∀ fs b, u = SendUnit.batch fs b →
      ∀ f ∈ fs, f.content_length ≤ MAX_VIDEO_SIZE)
    ∧ (i.is_gif = true → i.status_ok = true →
        MAX_VIDEO_SIZE < i.content_length →
        SendUnit.gifEmbed i false ∈ galleryPostSends images)
    ∧ (∀ (ok : Bool) (size : Nat), MAX_VIDEO_SIZE < size →
        download_video ok size MAX_VIDEO_SIZE = none ∧
        render_native_video ok size = .linkNote)
    ∧ embed_oversized_gif true = .fallbackNoteEmbed
    ∧ embed_oversized_gif false = .plainEmbed := by
  refine ⟨?_, ?_, ?_, rfl, rfl⟩
  · intro u hu fs b hub f hf
    subst hub
    obtain ⟨c, b', hcb, hcmem⟩ := mem_attachViewToLast v _ _ hu
    have hfc : f ∈ carouselFiles images := by
      rw [← chunks10_flatten (carouselFiles images)]
      refine List.mem_flatten.2 ⟨c, hcmem, ?_⟩
      cases hcb
      exact hf
    have := (List.mem_filter.1 hfc).2
    rcases Bool.and_eq_true_iff.1 this with ⟨-, hle⟩
    simpa using hle
  · intro hg ho hlt
    have : i ∈ images.filter
        (fun j => j.status_ok && j.is_gif &&
          decide (MAX_VIDEO_SIZE < j.content_length)) :=
      List.mem_filter.2 ⟨hi, by simp [hg, ho, hlt]⟩
    refine List.mem_cons_of_mem _ (List.mem_append_left _ ?_)
    exact List.mem_map_of_mem _ this
  · intro ok size hlt
    have hdl : download_video ok size MAX_VIDEO_SIZE = none := by
      rw [download_video, if_neg]
      simp [Nat.not_le.2 hlt]
    exact ⟨hdl, by rw [render_native_video, hdl]⟩

/-- Witness for the amended C8 at a concrete oversized GIF in a two-image
gallery. -/
theorem claim_C8_amended_size_ceiling_witness :
    SendUnit.gifEmbed ⟨true, true, 25165825⟩ false ∈
      galleryPostSends [⟨true, true, 25165825⟩, ⟨false, true, 5⟩]
    ∧ render_native_video true 25165825 = .linkNote :=
  ⟨(claim_C8_amended_size_ceiling
      [⟨true, true, 25165825⟩, ⟨false, true, 5⟩] true
      ⟨true, true, 25165825⟩ (by decide)).2.1 rfl rfl (by decide),
    ((claim_C8_amended_size_ceiling
      [⟨true, true, 25165825⟩, ⟨false, true, 5⟩] true
      ⟨true, true, 25165825⟩ (by decide)).2.2.1 true 25165825 (by decide)).2⟩

end RedditBot
